import Mathlib

/-!
Shallow embedding of the feed ingestion and normalization pipeline of
`src/news.py` (functions `get_image_from_entry`, `fetch_latest_news`,
`display_article_text`), together with theorems settling the claims about it.

External collaborators (the feed-parsing library, the HTML-text extraction
library, the notification sink) are modelled from the contracts in the spec:
the feed parser yields, per endpoint, either a raised exception, a bozo flag,
or a list of raw entries; the HTML capability is modelled over a small HTML
tree type whose text extraction and first-image search mirror
`BeautifulSoup(...).get_text()` and `soup.find('img')`.
-/

namespace News

/-- A `time.struct_time` as produced by feedparser's `published_parsed` /
`updated_parsed` fields: a 9-tuple (year, mon, mday, hour, min, sec, wday,
yday, isdst) compared lexicographically, as Python compares tuples. -/
structure Timestamp where
  tm_year : Nat
  tm_mon : Nat
  tm_mday : Nat
  tm_hour : Nat
  tm_min : Nat
  tm_sec : Nat
  tm_wday : Nat
  tm_yday : Nat
  tm_isdst : Nat
deriving DecidableEq, Repr

/-- `time.gmtime(0)`: the Unix epoch, 1970-01-01 00:00:00 (a Thursday,
`tm_wday = 3`, `tm_yday = 1`, `tm_isdst = 0`), used at line 77 of
`src/news.py` as the sort key of articles lacking a timestamp. -/
def gmtime0 : Timestamp := ⟨1970, 1, 1, 0, 0, 0, 3, 1, 0⟩

/-- The 9 fields of a `struct_time` in comparison order. -/
def Timestamp.toList (t : Timestamp) : List Nat :=
  [t.tm_year, t.tm_mon, t.tm_mday, t.tm_hour, t.tm_min, t.tm_sec,
   t.tm_wday, t.tm_yday, t.tm_isdst]

/-- Modelled from the spec: the output of the external HTML parsing
capability on a summary string, as a document tree. `text` holds character
data, `img` an image element with an optional `src` attribute, `tag` any
other element wrapping content, and `seq` adjacency of siblings. -/
inductive Html where
  | text (s : String)
  | img (src : Option String)
  | tag (name : String) (inner : Html)
  | seq (a b : Html)
deriving DecidableEq, Repr

/-- Modelled from the spec: `BeautifulSoup(html).get_text()` — concatenate
all character data, dropping every element marker. -/
def Html.get_text : Html → String
  | .text s => s
  | .img _ => ""
  | .tag _ inner => inner.get_text
  | .seq a b => a.get_text ++ b.get_text

/-- Modelled from the spec: `soup.find('img')` followed by reading the tag's
`src` attribute — `none` when no image element occurs, `some src` for the
first image element in document order (whose attribute may itself be
absent). -/
def Html.find_img : Html → Option (Option String)
  | .text _ => none
  | .img src => some src
  | .tag _ inner => inner.find_img
  | .seq a b => a.find_img.orElse (fun _ => b.find_img)

/-- One item of feedparser's `media_thumbnail` / `media_content` lists: a
dictionary whose `url` and `medium` keys may each be absent. -/
structure MediaItem where
  url : Option String
  medium : Option String
deriving DecidableEq, Repr

/-- A raw feed entry (untrusted, heterogeneous): every accessed field may be
absent. `title` and `link` are attribute accesses in the source and raise
`AttributeError` when missing; the rest are `.get`/`in` guarded. -/
structure RawEntry where
  title : Option String
  link : Option String
  published_parsed : Option Timestamp
  updated_parsed : Option Timestamp
  summary : Option Html
  media_thumbnail : Option (List MediaItem)
  media_content : Option (List MediaItem)
deriving DecidableEq, Repr

/-- The canonical article record appended at lines 66-73 of `src/news.py`. -/
structure Article where
  source : String
  title : String
  link : String
  published : Option Timestamp
  summary : String
  image_url : Option String
deriving DecidableEq, Repr

/-- The loop at lines 37-39 of `src/news.py`: scan `media_content` and
return the first item that has a `url` key and whose `medium` equals
`"image"`. -/
def find_content_url : List MediaItem → Option String
  | [] => none
  | item :: rest =>
      if item.url.isSome && (item.medium == some "image") then item.url
      else find_content_url rest

/-- The summary fallback of `get_image_from_entry` (lines 40-44 of
`src/news.py`): if the entry has a summary, parse it and look for the first
image element; `img_tag.get('src')` is falsy for an absent or empty `src`
attribute, so only a non-empty `src` is returned. This branch never
raises. -/
def summary_image (entry : RawEntry) : Option String :=
  match entry.summary with
  | some h =>
      match h.find_img with
      | some (some s) => if s = "" then none else some s
      | _ => none
  | none => none

/-- `get_image_from_entry` (lines 30-45 of `src/news.py`). The Python truth
tests `entry.media_thumbnail` / `entry.media_content` make a present-but-empty
list fall through exactly like an absent key. The unguarded subscription
`entry.media_thumbnail[0]['url']` raises `KeyError` if the first thumbnail
item has no `url` key, modelled by `Except.error`. -/
def get_image_from_entry (entry : RawEntry) : Except String (Option String) :=
  match entry.media_thumbnail with
  | some (item :: _) =>
      match item.url with
      | some u => .ok (some u)
      | none => .error "KeyError: url"
  | _ =>
      match find_content_url (entry.media_content.getD []) with
      | some u => .ok (some u)
      | none => .ok (summary_image entry)

/-- The per-entry body of the loop at lines 60-73 of `src/news.py`:
resolve `published` via `entry.get('published_parsed') or
entry.get('updated_parsed')` (a `struct_time` is always truthy, so `or`
falls through exactly on `None`/absent), default the summary to the literal
`'No summary available.'`, strip it to text, extract the image, then read
`entry.title` and `entry.link` (plain attribute accesses that raise
`AttributeError` when the key is absent). Failures are modelled by
`Except.error` in the order Python would raise them. -/
def normalize_entry (name : String) (entry : RawEntry) : Except String Article :=
  let published_time := entry.published_parsed.orElse (fun _ => entry.updated_parsed)
  let summary_html := entry.summary.getD (Html.text "No summary available.")
  let summary_text := summary_html.get_text
  match get_image_from_entry entry with
  | .error e => .error e
  | .ok image_url =>
      match entry.title, entry.link with
      | some title, some link =>
          .ok { source := name, title := title, link := link,
                published := published_time, summary := summary_text,
                image_url := image_url }
      | none, _ => .error "AttributeError: title"
      | some _, none => .error "AttributeError: link"

/-- A notification emitted through the sink (`st.warning` / `st.error`). -/
inductive Note where
  | warning (msg : String)
  | error (msg : String)
deriving DecidableEq, Repr

/-- Modelled from the spec: the outcome of invoking the external feed-parsing
capability (`feedparser.parse`) on one endpoint — an unexpected raised
error, or a parse result carrying the bozo flag and the entries. -/
inductive FeedResult where
  | raises (msg : String)
  | parsed (bozo : Bool) (entries : List RawEntry)
deriving DecidableEq, Repr

/-- Whether the feed-parsing capability failed for a source: it raised, or it
flagged the feed as malformed (bozo). -/
def FeedResult.failing : FeedResult → Bool
  | .raises _ => true
  | .parsed bozo _ => bozo

/-- The `for entry in feed.entries` loop (lines 60-73): append normalized
articles in order; on the first entry whose normalization raises, the
exception escapes to the per-source handler at line 74 — the remaining
entries are skipped, the articles appended so far are kept, and one error
note is emitted. -/
def process_entries (name : String) : List RawEntry → List Article × List Note
  | [] => ([], [])
  | e :: es =>
      match normalize_entry name e with
      | .ok a =>
          let rest := process_entries name es
          (a :: rest.fst, rest.snd)
      | .error msg =>
          ([], [.error ("Error fetching or parsing feed for " ++ name ++ ": " ++ msg)])

/-- One iteration of the source loop (lines 53-75): a raising parse is caught
at line 74 and reported; a bozo feed is skipped with a warning at line 57;
otherwise every entry is normalized. -/
def process_source (name : String) (r : FeedResult) : List Article × List Note :=
  match r with
  | .raises msg =>
      ([], [.error ("Error fetching or parsing feed for " ++ name ++ ": " ++ msg)])
  | .parsed true _ =>
      ([], [.warning ("Could not properly parse feed for " ++ name ++ ". It might be malformed.")])
  | .parsed false entries => process_entries name entries

/-- The source loop of `fetch_latest_news`: accumulate all articles and all
notes across the sources in order (a Python dict iterates in insertion
order, modelled by the association list). -/
def gather : List (String × FeedResult) → List Article × List Note
  | [] => ([], [])
  | (name, r) :: rest =>
      let cur := process_source name r
      let rest' := gather rest
      (cur.fst ++ rest'.fst, cur.snd ++ rest'.snd)

/-- Python's `<` on two equal-length tuples of ints, turned into `≤` as a
Boolean lexicographic comparison on the field lists. -/
def natListLe : List Nat → List Nat → Bool
  | [], _ => true
  | _ :: _, [] => false
  | a :: as, b :: bs =>
      if a < b then true else if b < a then false else natListLe as bs

/-- The sort key of line 77: `x["published"] or time.gmtime(0)` — a missing
timestamp is replaced by the Unix epoch (a `struct_time` is never falsy). -/
def sort_key (p : Option Timestamp) : List Nat := (p.getD gmtime0).toList

/-- The ordering used by `all_articles.sort(key=..., reverse=True)`:
`a` precedes `b` when `a`'s key is at least `b`'s key (descending). Python's
sort is stable also under `reverse=True`, which the stable insertion sort
below reproduces: among equal keys the original order is kept. -/
def newer (a b : Article) : Prop :=
  natListLe (sort_key b.published) (sort_key a.published) = true

instance : DecidableRel newer := fun a b =>
  inferInstanceAs (Decidable (natListLe (sort_key b.published) (sort_key a.published) = true))

/-- `fetch_latest_news` (lines 47-78 of `src/news.py`): run the source loop,
sort the collected articles by `published` descending with missing
timestamps keyed as the epoch, and return them with the emitted notes. -/
def fetch_latest_news (selected_feeds : List (String × FeedResult)) :
    List Article × List Note :=
  let g := gather selected_feeds
  (List.insertionSort newer g.fst, g.snd)

/-- Cut character data at whitespace: every whitespace character closes the
current chunk, so whitespace runs leave empty chunks behind. -/
def split_words : List Char → List (List Char)
  | [] => []
  | c :: cs =>
      let rest := split_words cs
      if c.isWhitespace then [] :: rest
      else
        match rest with
        | [] => [[c]]
        | w :: ws => (c :: w) :: ws

/-- Python's `str.split()` with no argument: split on whitespace runs and
drop the empty pieces. Implemented by structural recursion over the
character data so that it evaluates by plain kernel reduction. -/
def pywords (s : String) : List String :=
  ((split_words s.data).filter (fun w => w ≠ [])).map (fun w => String.mk w)

/-- Python's `sep.join(ws)`. -/
def pyjoin (sep : String) : List String → String
  | [] => ""
  | [w] => w
  | w :: ws => w ++ sep ++ pyjoin sep ws

/-- The summary shown by `display_article_text` (lines 87-91 of
`src/news.py`): if the stored summary has more than 500 words, rejoin its
first 500 words with single spaces and append `"..."`; otherwise show it
unchanged. -/
def displayed_summary (article : Article) : String :=
  let summary := article.summary
  let max_len := 500
  if (pywords summary).length > max_len then
    pyjoin " " ((pywords summary).take max_len) ++ "..."
  else summary

/-- A string free of the tag-delimiting angle brackets: the sense in which a
stripped summary "contains no markup". -/
def no_markup (s : String) : Bool :=
  s.data.all (fun c => (c != '<') && (c != '>'))

/-- All character data of an HTML tree is itself markup-free — true of every
document the HTML parser yields, since any angle bracket opening a tag is
consumed as element structure rather than kept as character data. -/
def Html.text_ok : Html → Bool
  | .text s => no_markup s
  | .img _ => true
  | .tag _ inner => inner.text_ok
  | .seq a b => a.text_ok && b.text_ok

/-- The image-extraction heuristic as amended: the content-media field is
considered whenever the thumbnail-media list is absent OR empty; in that
branch the first item carrying a url and declaring medium "image" wins; a
non-empty thumbnail list yields its first item's url, raising when that item
has none; then the summary fallback; else null. Stated independently of
`get_image_from_entry` (via `getD` and `List.find?`) to be compared with
it. -/
def get_image_amended (e : RawEntry) : Except String (Option String) :=
  match e.media_thumbnail.getD [] with
  | item :: _ =>
      match item.url with
      | some u => .ok (some u)
      | none => .error "KeyError: url"
  | [] =>
      match (e.media_content.getD []).find?
          (fun i => i.url.isSome && (i.medium == some "image")) with
      | some i => .ok i.url
      | none => .ok (summary_image e)

/-- The ordering of published values asserted by the sorting claim: a null
timestamp is the minimum possible (oldest) value, strictly below every
concrete timestamp. -/
def claim_published_le : Option Timestamp → Option Timestamp → Bool
  | none, _ => true
  | some _, none => false
  | some x, some y => natListLe x.toList y.toList

/-! Concrete inputs used by counterexamples and witnesses. -/

/-- The character data of `n + 1` copies of the letter `w` separated by
single spaces, written recursively so facts about it follow by induction
rather than by a 1000-step kernel evaluation. -/
def wrun : Nat → List Char
  | 0 => ['w']
  | n + 1 => 'w' :: ' ' :: wrun n

/-- A summary of exactly 501 single-letter words. -/
def words501 : String := String.mk (wrun 500)

/-- An entry whose stripped summary has 501 words. -/
def entry501 : RawEntry :=
  { title := some "t", link := some "http://a/1",
    published_parsed := none, updated_parsed := none,
    summary := some (Html.text words501),
    media_thumbnail := none, media_content := none }

/-- The article `fetch_latest_news` builds from `entry501`. -/
def article501 : Article :=
  { source := "A", title := "t", link := "http://a/1",
    published := none, summary := words501, image_url := none }

/-- A pre-epoch `struct_time` (May 1960). -/
def ts1960 : Timestamp := ⟨1960, 5, 4, 3, 2, 1, 2, 125, 0⟩

/-- A valid entry dated 1960, before the Unix epoch. -/
def entry1960 : RawEntry :=
  { title := some "old", link := some "http://a/old",
    published_parsed := some ts1960, updated_parsed := none, summary := none,
    media_thumbnail := none, media_content := none }

/-- The article `fetch_latest_news` builds from `entry1960`. -/
def article1960 : Article :=
  { source := "A", title := "old", link := "http://a/old",
    published := some ts1960, summary := "No summary available.",
    image_url := none }

/-- A valid entry with no timestamp at all. -/
def entryUndated : RawEntry :=
  { title := some "undated", link := some "http://a/undated",
    published_parsed := none, updated_parsed := none, summary := none,
    media_thumbnail := none, media_content := none }

/-- The article `fetch_latest_news` builds from `entryUndated`. -/
def articleUndated : Article :=
  { source := "A", title := "undated", link := "http://a/undated",
    published := none, summary := "No summary available.", image_url := none }

/-- One healthy source whose feed has a pre-epoch entry and an undated
entry, in that order. -/
def feeds1960 : List (String × FeedResult) :=
  [("A", .parsed false [entry1960, entryUndated])]

/-- One healthy source. -/
def feedsGood : List (String × FeedResult) :=
  [("A", .parsed false [entry1960])]

/-- The same healthy source followed by a malformed (bozo) source. -/
def feedsWithBozo : List (String × FeedResult) :=
  [("A", .parsed false [entry1960]), ("B", .parsed true [])]

/-- An entry whose thumbnail-media list is non-empty but whose first item
has no `url` key. -/
def entryThumbNoUrl : RawEntry :=
  { title := some "t", link := some "http://a/2",
    published_parsed := none, updated_parsed := none, summary := none,
    media_thumbnail := some [{ url := none, medium := none }],
    media_content := none }

/-- An entry whose thumbnail-media field is present but an empty list, with
an image item in its content-media field and no summary. -/
def entryEmptyThumb : RawEntry :=
  { title := some "t", link := some "http://a/3",
    published_parsed := none, updated_parsed := none, summary := none,
    media_thumbnail := some [],
    media_content := some [{ url := some "http://c/img.png", medium := some "image" }] }

/-- `entryEmptyThumb` with its content-media field removed. -/
def entryEmptyThumbNoContent : RawEntry :=
  { entryEmptyThumb with media_content := none }

/-- An entry without media fields whose summary's first (and only) image
element lacks a `src` attribute. -/
def entryImgNoSrc : RawEntry :=
  { title := some "t", link := some "http://a/4",
    published_parsed := none, updated_parsed := none,
    summary := some (Html.seq (Html.text "hello") (Html.img none)),
    media_thumbnail := none, media_content := none }

/-! ### Helper lemmas -/

theorem split_words_wrun (n : Nat) :
    split_words (wrun n) = List.replicate (n + 1) ['w'] := by
  induction n with
  | zero => rfl
  | succ n ih => simp [wrun, split_words, ih, List.replicate]

theorem pywords_wrun (n : Nat) :
    pywords (String.mk (wrun n)) = List.replicate (n + 1) "w" := by
  unfold pywords
  rw [show (String.mk (wrun n)).data = wrun n from rfl, split_words_wrun]
  simp

theorem wrun_length (n : Nat) : (wrun n).length = 2 * n + 1 := by
  induction n with
  | zero => rfl
  | succ n ih => simp [wrun, ih]; omega

theorem pyjoin_replicate_w_length (n : Nat) :
    (pyjoin " " (List.replicate (n + 1) "w")).length = 2 * n + 1 := by
  induction n with
  | zero => rfl
  | succ n ih =>
      have h2 : pyjoin " " (List.replicate (n + 2) "w") =
          "w" ++ " " ++ pyjoin " " (List.replicate (n + 1) "w") := by
        rw [List.replicate_succ, List.replicate_succ]
        rfl
      rw [show n + 1 + 1 = n + 2 from rfl, h2]
      rw [String.length_append, String.length_append, ih]
      rw [show ("w" : String).length = 1 from rfl, show (" " : String).length = 1 from rfl]
      omega

set_option linter.unnecessarySimpa false in
theorem normalize_entry_ok {name : String} {e : RawEntry} {art : Article}
    (h : normalize_entry name e = .ok art) :
    art.source = name ∧
    art.published = e.published_parsed.orElse (fun _ => e.updated_parsed) ∧
    art.summary = (e.summary.getD (Html.text "No summary available.")).get_text ∧
    get_image_from_entry e = .ok art.image_url ∧
    e.title = some art.title ∧ e.link = some art.link := by
  cases hgi : get_image_from_entry e with
  | error msg => simp [normalize_entry, hgi] at h
  | ok v =>
      cases ht : e.title with
      | none => simp [normalize_entry, hgi, ht] at h
      | some t =>
          cases hl : e.link with
          | none => simp [normalize_entry, hgi, ht, hl] at h
          | some l =>
              simp only [normalize_entry, hgi, ht, hl] at h
              injection h with h2
              subst h2
              exact ⟨rfl, rfl, rfl, by simpa using hgi, by simpa using ht,
                by simpa using hl⟩

theorem natListLe_refl (a : List Nat) : natListLe a a = true := by
  induction a with
  | nil => rfl
  | cons x xs ih => simp [natListLe, ih]

theorem natListLe_total (a b : List Nat) :
    natListLe a b = true ∨ natListLe b a = true := by
  induction a generalizing b with
  | nil => left; rfl
  | cons x xs ih =>
      cases b with
      | nil => right; rfl
      | cons y ys =>
          rcases Nat.lt_trichotomy x y with h | h | h
          · left; simp [natListLe, h]
          · subst h
            rcases ih ys with h2 | h2
            · left; simp [natListLe, h2]
            · right; simp [natListLe, h2]
          · right; simp [natListLe, h]

theorem natListLe_trans {a b c : List Nat} (h1 : natListLe a b = true)
    (h2 : natListLe b c = true) : natListLe a c = true := by
  induction a generalizing b c with
  | nil => rfl
  | cons x xs ih =>
      cases b with
      | nil => simp [natListLe] at h1
      | cons y ys =>
          cases c with
          | nil => simp [natListLe] at h2
          | cons z zs =>
              simp only [natListLe] at h1 h2 ⊢
              split_ifs at h1 h2 ⊢ <;>
                first
                | rfl
                | omega
                | exact ih h1 h2

theorem newer_total (a b : Article) : newer a b ∨ newer b a :=
  natListLe_total _ _

theorem newer_trans (a b c : Article) (h1 : newer a b) (h2 : newer b c) :
    newer a c :=
  natListLe_trans h2 h1

theorem filter_key_orderedInsert (c : List Nat) (x : Article) (l : List Article) :
    (List.orderedInsert newer x l).filter (fun a => sort_key a.published == c) =
      if sort_key x.published == c
      then x :: l.filter (fun a => sort_key a.published == c)
      else l.filter (fun a => sort_key a.published == c) := by
  induction l with
  | nil =>
      rw [List.orderedInsert_nil, List.filter]
      by_cases hc : (sort_key x.published == c) = true <;> simp [hc]
  | cons y ys ih =>
      by_cases hins : newer x y
      · rw [List.orderedInsert, if_pos hins]
        by_cases hc : (sort_key x.published == c) = true <;>
          simp [List.filter_cons, hc]
      · rw [List.orderedInsert, if_neg hins]
        have hxy : sort_key y.published ≠ sort_key x.published := by
          intro heq
          exact hins (show natListLe (sort_key y.published) (sort_key x.published) = true by
            rw [heq]; exact natListLe_refl _)
        rw [List.filter_cons, List.filter_cons, ih]
        by_cases hc : (sort_key x.published == c) = true
        · have hyc : (sort_key y.published == c) = false := by
            rw [beq_eq_false_iff_ne]
            rw [beq_iff_eq] at hc
            rw [← hc]
            exact hxy
          simp [hc, hyc]
        · by_cases hyc : (sort_key y.published == c) = true <;> simp [hc, hyc]

theorem filter_key_insertionSort (c : List Nat) (l : List Article) :
    (List.insertionSort newer l).filter (fun a => sort_key a.published == c) =
      l.filter (fun a => sort_key a.published == c) := by
  induction l with
  | nil => rfl
  | cons x xs ih =>
      rw [List.insertionSort, filter_key_orderedInsert, ih, List.filter_cons]

theorem gather_append (l1 l2 : List (String × FeedResult)) :
    gather (l1 ++ l2) =
      ((gather l1).fst ++ (gather l2).fst, (gather l1).snd ++ (gather l2).snd) := by
  induction l1 with
  | nil => simp [gather]
  | cons p rest ih =>
      cases p with
      | mk name r => simp [gather, ih]

theorem process_entries_source (name : String) (es : List RawEntry) (a : Article)
    (h : a ∈ (process_entries name es).fst) : a.source = name := by
  induction es with
  | nil => simp [process_entries] at h
  | cons e rest ih =>
      rw [process_entries] at h
      cases hne : normalize_entry name e with
      | error msg => rw [hne] at h; simp at h
      | ok a' =>
          rw [hne] at h
          simp at h
          rcases h with h | h
          · subst h; exact (normalize_entry_ok hne).1
          · exact ih h

theorem process_source_source (name : String) (r : FeedResult) (a : Article)
    (h : a ∈ (process_source name r).fst) : a.source = name := by
  cases r with
  | raises msg => simp [process_source] at h
  | parsed b es =>
      cases b with
      | true => simp [process_source] at h
      | false => exact process_entries_source name es a h

theorem get_text_no_markup (h : Html) (hok : h.text_ok = true) :
    no_markup h.get_text = true := by
  induction h with
  | text s => exact hok
  | img src => rfl
  | tag nm inner ih => exact ih hok
  | seq a b iha ihb =>
      rw [Html.text_ok, Bool.and_eq_true] at hok
      rw [Html.get_text]
      unfold no_markup
      rw [String.data_append, List.all_append]
      have ha := iha hok.1
      have hb := ihb hok.2
      unfold no_markup at ha hb
      rw [ha, hb]
      rfl

theorem get_image_fallthrough (e : RawEntry)
    (h : e.media_thumbnail = none ∨ e.media_thumbnail = some []) :
    get_image_from_entry e =
      match find_content_url (e.media_content.getD []) with
      | some u => .ok (some u)
      | none => .ok (summary_image e) := by
  rcases h with h | h <;> (unfold get_image_from_entry; rw [h])

theorem summary_image_of_empty_src (e : RawEntry) (h : Html) (hs : e.summary = some h)
    (hfi : h.find_img = some none ∨ h.find_img = some (some "")) :
    summary_image e = none := by
  rcases hfi with h2 | h2 <;> simp [summary_image, hs, h2]

theorem find_content_url_eq (l : List MediaItem) :
    find_content_url l =
      (l.find? (fun i => i.url.isSome && (i.medium == some "image"))).bind
        (fun i => i.url) := by
  induction l with
  | nil => rfl
  | cons item rest ih =>
      by_cases hp : (item.url.isSome && (item.medium == some "image")) = true
      · rw [find_content_url, if_pos hp]
        simp only [List.find?, hp]
        rfl
      · have hpf : (item.url.isSome && (item.medium == some "image")) = false := by
          simpa using hp
        rw [find_content_url, if_neg hp, ih]
        simp only [List.find?, hpf]

/-! ### Claim theorems -/

/-- C1, amended: the Article built by the normalization step of ingestion
carries the stripped summary untruncated; the 500-word truncation with an
appended ellipsis is applied by the display routine, which shows the first
500 words joined by single spaces followed by `"..."` when the stored
summary has more than 500 words, and the stored summary unchanged
otherwise. -/
theorem truncation_happens_at_display (name : String) (e : RawEntry) (art : Article)
    (h : normalize_entry name e = .ok art) :
    art.summary = (e.summary.getD (Html.text "No summary available.")).get_text ∧
    (500 < (pywords art.summary).length →
      displayed_summary art = pyjoin " " ((pywords art.summary).take 500) ++ "...") ∧
    ((pywords art.summary).length ≤ 500 → displayed_summary art = art.summary) := by
  refine ⟨(normalize_entry_ok h).2.2.1, ?_, ?_⟩
  · intro hgt
    rw [displayed_summary]
    rw [if_pos hgt]
  · intro hle
    rw [displayed_summary]
    rw [if_neg (by omega)]

/-- C1 counterexample: `entry501` has a stripped summary of 501 words, yet
the Article produced by ingestion keeps all 501 words — its summary is not
the first 500 words followed by an ellipsis marker, contrary to the claim
that the normalization step truncates. -/
theorem truncation_not_in_normalization :
    normalize_entry "A" entry501 = .ok article501 ∧
    500 < (pywords article501.summary).length ∧
    article501.summary ≠ pyjoin " " ((pywords article501.summary).take 500) ++ "..." := by
  refine ⟨rfl, ?_, ?_⟩
  · rw [show article501.summary = words501 from rfl,
        show words501 = String.mk (wrun 500) from rfl, pywords_wrun, List.length_replicate]
    omega
  · rw [show article501.summary = words501 from rfl,
        show words501 = String.mk (wrun 500) from rfl, pywords_wrun]
    intro hcontra
    have hl := congrArg String.length hcontra
    rw [List.take_replicate, show min 500 501 = 500 from rfl] at hl
    rw [String.length_append] at hl
    rw [show (500 : Nat) = 499 + 1 from rfl, pyjoin_replicate_w_length 499] at hl
    rw [show (String.mk (wrun 500)).length = (wrun 500).length from rfl, wrun_length] at hl
    rw [show ("..." : String).length = 3 from rfl] at hl
    omega

/-- C1 witness: the display routine truncates the 501-word article. -/
theorem truncation_happens_at_display_witness :
    displayed_summary article501 = pyjoin " " ((pywords article501.summary).take 500) ++ "..." := by
  have h := truncation_happens_at_display "A" entry501 article501 rfl
  refine h.2.1 ?_
  rw [show article501.summary = words501 from rfl,
      show words501 = String.mk (wrun 500) from rfl, pywords_wrun, List.length_replicate]
  omega

/-- C2: a source whose parse raises or whose feed is flagged bozo
contributes no articles, and removing it from the mapping leaves the
ingestion result unchanged — other sources are unaffected. -/
theorem failing_source_isolated (pre : List (String × FeedResult)) (name : String)
    (r : FeedResult) (post : List (String × FeedResult)) (h : r.failing = true) :
    (fetch_latest_news (pre ++ (name, r) :: post)).fst =
      (fetch_latest_news (pre ++ post)).fst := by
  have hp : (process_source name r).fst = [] := by
    cases r with
    | raises msg => rfl
    | parsed b es =>
        cases b with
        | true => rfl
        | false => simp [FeedResult.failing] at h
  have key : (gather (pre ++ (name, r) :: post)).fst = (gather (pre ++ post)).fst := by
    rw [gather_append, gather_append]
    simp [gather, hp]
  simp [fetch_latest_news, key]

/-- C2 witness: adding a bozo source "B" after a healthy source "A" leaves
the returned articles unchanged. -/
theorem failing_source_isolated_witness :
    (fetch_latest_news feedsWithBozo).fst = (fetch_latest_news feedsGood).fst :=
  failing_source_isolated [("A", .parsed false [entry1960])] "B" (.parsed true []) [] rfl

/-- C3, amended: the returned collection is sorted descending by the key
`published or gmtime(0)` — a missing timestamp is keyed as the Unix epoch,
not as the minimum possible timestamp — the sort is stable (articles with
equal keys keep their pre-sort order, witnessed by filtering on any key
value), and sorting is total, so it never raises on missing timestamps. -/
theorem result_sorted_epoch_key_stable (feeds : List (String × FeedResult)) :
    List.Sorted newer (fetch_latest_news feeds).fst ∧
    ∀ c, ((fetch_latest_news feeds).fst).filter (fun a => sort_key a.published == c) =
      ((gather feeds).fst).filter (fun a => sort_key a.published == c) := by
  constructor
  · haveI : IsTotal Article newer := ⟨newer_total⟩
    haveI : IsTrans Article newer := ⟨newer_trans⟩
    exact List.sorted_insertionSort newer (gather feeds).fst
  · intro c
    exact filter_key_insertionSort c (gather feeds).fst

/-- C3 counterexample: a feed holding an article dated 1960 and an undated
article. The code keys the undated article as the 1970 epoch, so it sorts
strictly newer than the 1960 article — the result is not ordered by the
claimed comparison in which a null timestamp is the minimum (oldest)
value. -/
theorem null_published_not_minimum :
    ¬ List.Pairwise (fun a b => claim_published_le b.published a.published = true)
      (fetch_latest_news feeds1960).fst := by decide

/-- C4, amended: the image extractor raises (a `KeyError` escaping to the
caller) exactly when the entry's thumbnail-media list is non-empty and its
first item lacks a url; for every other entry it terminates and returns a
URI or null. -/
theorem image_extractor_raises_iff_thumbnail_without_url (e : RawEntry) :
    (get_image_from_entry e).isOk = false ↔
      ∃ item rest, e.media_thumbnail = some (item :: rest) ∧ item.url = none := by
  constructor
  · intro hbad
    cases hmt : e.media_thumbnail with
    | none =>
        rw [get_image_fallthrough e (Or.inl hmt)] at hbad
        revert hbad
        cases find_content_url (e.media_content.getD []) <;>
          simp [Except.isOk, Except.toBool]
    | some l =>
        cases l with
        | nil =>
            rw [get_image_fallthrough e (Or.inr hmt)] at hbad
            revert hbad
            cases find_content_url (e.media_content.getD []) <;>
              simp [Except.isOk, Except.toBool]
        | cons item rest =>
            cases hu : item.url with
            | some u =>
                have hok : get_image_from_entry e = .ok (some u) := by
                  simp only [get_image_from_entry, hmt, hu]
                rw [hok] at hbad
                exact absurd hbad (by simp [Except.isOk, Except.toBool])
            | none => exact ⟨item, rest, rfl, hu⟩
  · rintro ⟨item, rest, hsome, hu⟩
    have herr : get_image_from_entry e = .error "KeyError: url" := by
      simp only [get_image_from_entry, hsome, hu]
    rw [herr]
    rfl

/-- C4 counterexample: on an entry whose non-empty thumbnail list starts
with an item lacking a url, the extractor raises instead of returning a URI
or null. -/
theorem image_extractor_can_raise :
    get_image_from_entry entryThumbNoUrl = .error "KeyError: url" ∧
    (get_image_from_entry entryThumbNoUrl).isOk = false :=
  ⟨rfl, rfl⟩

/-- C5, amended: the extractor equals the amended priority description: a
non-empty thumbnail list wins with its first item's url (raising when that
item has none); the content-media field is considered whenever the
thumbnail-media list is absent OR merely empty, returning the first item
that carries a url and declares medium "image"; then the summary HTML
fallback; else null. -/
theorem image_priority_amended (e : RawEntry) :
    get_image_from_entry e = get_image_amended e := by
  have hcontent : ∀ hfall : e.media_thumbnail = none ∨ e.media_thumbnail = some [],
      get_image_amended e =
        match (e.media_content.getD []).find?
            (fun i => i.url.isSome && (i.medium == some "image")) with
        | some i => .ok i.url
        | none => .ok (summary_image e) := by
    rintro (hfall | hfall) <;> (unfold get_image_amended; rw [hfall]; rfl)
  cases hmt : e.media_thumbnail with
  | none =>
      rw [get_image_fallthrough e (Or.inl hmt), hcontent (Or.inl hmt), find_content_url_eq]
      cases hf : (e.media_content.getD []).find?
          (fun i => i.url.isSome && (i.medium == some "image")) with
      | none => rfl
      | some i =>
          have hp := List.find?_some hf
          rw [Bool.and_eq_true] at hp
          obtain ⟨u, hu⟩ := Option.isSome_iff_exists.mp hp.1
          simp only [Option.bind, hu]
  | some l =>
      cases l with
      | nil =>
          rw [get_image_fallthrough e (Or.inr hmt), hcontent (Or.inr hmt), find_content_url_eq]
          cases hf : (e.media_content.getD []).find?
              (fun i => i.url.isSome && (i.medium == some "image")) with
          | none => rfl
          | some i =>
              have hp := List.find?_some hf
              rw [Bool.and_eq_true] at hp
              obtain ⟨u, hu⟩ := Option.isSome_iff_exists.mp hp.1
              simp only [Option.bind, hu]
      | cons item rest =>
          cases hu : item.url with
          | some u =>
              simp only [get_image_from_entry, get_image_amended, hmt, hu, Option.getD]
          | none =>
              simp only [get_image_from_entry, get_image_amended, hmt, hu, Option.getD]

/-- C5 counterexample: an entry whose thumbnail-media field is present but
empty. The code still consults the content-media field and returns its
image url — removing the content-media field changes the result to null —
contradicting the claim that content-media is considered only when the
thumbnail-media field is absent. -/
theorem empty_thumbnail_still_considers_content :
    get_image_from_entry entryEmptyThumb = .ok (some "http://c/img.png") ∧
    get_image_from_entry entryEmptyThumbNoContent = .ok none ∧
    entryEmptyThumb.media_thumbnail = some [] ∧
    entryEmptyThumbNoContent = { entryEmptyThumb with media_content := none } :=
  ⟨rfl, rfl, rfl, rfl⟩

/-- C6: the Article's summary is the entry's summary stripped of markup,
is the literal default when the entry has no summary at all, and is free of
angle-bracket markup whenever the parsed summary's character data is. -/
theorem summary_stripped_and_defaulted (name : String) (e : RawEntry) (art : Article)
    (h : normalize_entry name e = .ok art) :
    art.summary = (e.summary.getD (Html.text "No summary available.")).get_text ∧
    (e.summary = none → art.summary = "No summary available.") ∧
    ((e.summary.getD (Html.text "No summary available.")).text_ok = true →
      no_markup art.summary = true) := by
  have hs := (normalize_entry_ok h).2.2.1
  refine ⟨hs, ?_, ?_⟩
  · intro hn
    rw [hs, hn]
    rfl
  · intro hok
    rw [hs]
    exact get_text_no_markup _ hok

/-- C6 witness: an entry without a summary field yields the default. -/
theorem summary_stripped_and_defaulted_witness :
    articleUndated.summary = "No summary available." :=
  (summary_stripped_and_defaulted "A" entryUndated articleUndated rfl).2.1 rfl

/-- C7: the Article's published value prefers the published timestamp, falls
back to the updated timestamp, and is null when neither is present. -/
theorem published_prefers_published_then_updated (name : String) (e : RawEntry)
    (art : Article) (h : normalize_entry name e = .ok art) :
    (∀ t, e.published_parsed = some t → art.published = some t) ∧
    (e.published_parsed = none → ∀ u, e.updated_parsed = some u → art.published = some u) ∧
    (e.published_parsed = none → e.updated_parsed = none → art.published = none) := by
  have hp := (normalize_entry_ok h).2.1
  refine ⟨?_, ?_, ?_⟩
  · intro t ht
    rw [hp, ht]
    rfl
  · intro hn u hu
    rw [hp, hn, hu]
    rfl
  · intro hn hu
    rw [hp, hn, hu]
    rfl

/-- C7 witness: an entry carrying a published timestamp keeps it. -/
theorem published_prefers_published_then_updated_witness :
    article1960.published = some ts1960 :=
  (published_prefers_published_then_updated "A" entry1960 article1960 rfl).1 ts1960 rfl

/-- C8: every article in the ingestion result carries as its source one of
the names of the selected mapping. -/
theorem sources_subset_of_selected (feeds : List (String × FeedResult)) (a : Article)
    (h : a ∈ (fetch_latest_news feeds).fst) : a.source ∈ feeds.map Prod.fst := by
  have h2 : a ∈ (gather feeds).fst := by
    simpa [fetch_latest_news] using h
  clear h
  induction feeds with
  | nil => simp [gather] at h2
  | cons p rest ih =>
      cases p with
      | mk name r =>
          rw [gather] at h2
          rcases List.mem_append.mp h2 with hmem | hmem
          · rw [List.map_cons]
            exact (process_source_source name r a hmem) ▸ List.mem_cons_self _ _
          · exact List.mem_cons_of_mem _ (ih hmem)

/-- C8 witness: the one article fetched from source "A" is tagged "A". -/
theorem sources_subset_of_selected_witness :
    article1960.source ∈ feedsGood.map Prod.fst :=
  sources_subset_of_selected feedsGood article1960 (by decide)

/-- C9: ingesting an empty mapping returns an empty collection and emits no
warnings and no errors. -/
theorem empty_sources_empty_result : fetch_latest_news [] = ([], []) := rfl

/-- C10: for an entry without media fields whose summary's first image
element lacks a non-empty src attribute, the extractor returns null — it
never returns an empty-string URL. -/
theorem summary_fallback_requires_nonempty_src (e : RawEntry) (h : Html)
    (hmt : e.media_thumbnail = none) (hmc : e.media_content = none)
    (hs : e.summary = some h)
    (hfi : h.find_img = some none ∨ h.find_img = some (some "")) :
    get_image_from_entry e = .ok none ∧ get_image_from_entry e ≠ .ok (some "") := by
  have hfall := get_image_fallthrough e (Or.inl hmt)
  rw [hmc] at hfall
  have hnone : get_image_from_entry e = .ok (summary_image e) := hfall
  rw [hnone, summary_image_of_empty_src e h hs hfi]
  exact ⟨rfl, by simp⟩

/-- C10 witness: a summary whose only image element has no src yields
null. -/
theorem summary_fallback_requires_nonempty_src_witness :
    get_image_from_entry entryImgNoSrc = .ok none :=
  (summary_fallback_requires_nonempty_src entryImgNoSrc
    (Html.seq (Html.text "hello") (Html.img none)) rfl rfl rfl (Or.inl rfl)).1

end News
